import Mathlib

/-!
Verification of the `gd_sqlite3` record mapper (`src/gd_sqlite3/__init__.py`).

The library is a thin ORM over SQLite: it reflects a table's column order via
`PRAGMA table_info`, converts application records to ordered value tuples, and
synthesizes parameterized SQL for CRUD operations.  We give a shallow embedding:
a database is an association list from table name to table, a table is a schema
(ordered column list) plus a list of rows, and each library method is a Lean
function whose effect on the state is the documented semantics of the one SQL
statement the Python method builds and executes.  Python exceptions
(`AttributeError` from `getattr`, and engine errors: unknown column at prepare
time, syntax error on an empty `WHERE` clause, uniqueness-constraint violations
on plain `INSERT`) are modelled by `Option`: `none` means the call raised and no
new state was committed.
-/

namespace GdSqlite3

/-- SQLite storage values as used through this library: `NULL`, integers and
text.  (Floats are out of scope of the embedding; nothing in the claims
depends on them.) -/
inductive Value where
  | null : Value
  | int : Int → Value
  | str : String → Value
deriving DecidableEq, Repr

/-- A stored row: the list of values in schema (column) order; index 0 is the
synthetic `id` column. -/
abbrev Row := List Value

/-- One column of a table schema, as SQLite keeps it: name, declared type,
not-null flag, default value, primary-key flag, plus the `UNIQUE`-constraint
flag (which `PRAGMA table_info` does not report but the engine enforces). -/
structure Column where
  name : String
  type : String
  notnull : Bool
  dflt : Option String
  pk : Bool
  unique : Bool
deriving DecidableEq, Repr

/-- A table: ordered schema and current rows. -/
structure Table where
  schema : List Column
  rows : List Row
deriving DecidableEq, Repr

/-- The database state: an association list from table name to table
(the contents of the SQLite file behind `sqlite3.connect(self.path)`). -/
abbrev Database := List (String × Table)

/-- An application record (an `attrs` instance): a finite map from field name
to value.  `getattr` is lookup. -/
abbrev Obj := List (String × Value)

/-- A query predicate, `dict[str, str | int | float | bool]` in the source:
a mapping from column name to a scalar equality value. -/
abbrev Query := List (String × Value)

/-- Python `getattr(obj, name)`: `none` models `AttributeError`. -/
def getattr (obj : Obj) (name : String) : Option Value :=
  (obj.find? (fun p => p.1 == name)).map (fun p => p.2)

/-- Look a table up by name in the database state. -/
def getTable (db : Database) (table : String) : Option Table :=
  (db.find? (fun p => p.1 == table)).map (fun p => p.2)

/-- Replace the table bound to `table` (used only when it exists). -/
def setTable (db : Database) (table : String) (t : Table) : Database :=
  db.map (fun p => if p.1 == table then (p.1, t) else p)

/-- Row of `PRAGMA table_info` output, as the docstring of `get_table_info`
describes it: Id, Name, Type, Is not null, Default value, Is primary key. -/
structure InfoRow where
  cid : Nat
  name : String
  type : String
  notnull : Bool
  dflt : Option String
  pk : Bool
deriving DecidableEq, Repr

/-- `get_table_info`: `PRAGMA table_info(table)` — the schema with positional
column ids. -/
def get_table_info (t : Table) : List InfoRow :=
  t.schema.enum.map (fun p => ⟨p.1, p.2.name, p.2.type, p.2.notnull, p.2.dflt, p.2.pk⟩)

/-- `table_columns`: the column names in introspection order. -/
def table_columns (t : Table) : List String :=
  t.schema.map (fun c => c.name)

/-- A column definition as the engine parses it out of the caller-supplied
uppercased type string (e.g. `"TEXT NOT NULL UNIQUE"` becomes type `TEXT`,
not-null, unique): declared type, not-null, default, unique. -/
structure ColumnDef where
  type : String
  notnull : Bool
  dflt : Option String
  unique : Bool
deriving DecidableEq, Repr

/-- The synthetic identity column `id INTEGER PRIMARY KEY` that `create_table`
always puts first.  `PRAGMA table_info` reports it as
`(0, "id", "INTEGER", 0, NULL, 1)`; as the rowid alias it is unique. -/
def idColumn : Column :=
  ⟨"id", "INTEGER", false, none, true, true⟩

/-- Schema column built from one entry of the `fields` dict of `create_table`. -/
def mkColumn (f : String × ColumnDef) : Column :=
  ⟨f.1, f.2.type, f.2.notnull, f.2.dflt, false, f.2.unique⟩

/-- `create_table(table, fields)`: executes
`CREATE TABLE IF NOT EXISTS table (id INTEGER PRIMARY KEY, ...fields)` and
commits, then returns `get_table_info(table)`.  `IF NOT EXISTS` means an
existing table (whatever its schema) is left untouched. -/
def create_table (db : Database) (table : String) (fields : List (String × ColumnDef)) :
    Database × List InfoRow :=
  match getTable db table with
  | some t => (db, get_table_info t)
  | none =>
    let t : Table := ⟨idColumn :: fields.map mkColumn, []⟩
    ((table, t) :: db, get_table_info t)

/-- SQL `=` between two stored values: comparison with `NULL` is never true
(a `NULL` result is not a match). -/
def sqlEq (a b : Value) : Bool :=
  match a, b with
  | Value.null, _ => false
  | _, Value.null => false
  | a, b => decide (a = b)

/-- Index of a column name in the schema. -/
def colIndex (schema : List Column) (name : String) : Option Nat :=
  schema.findIdx? (fun c => c.name == name)

/-- Value of a named column in a row. -/
def rowVal (schema : List Column) (r : Row) (name : String) : Option Value :=
  (colIndex schema name).bind (fun i => r.get? i)

/-- Whether a row satisfies every `col=?` equality of a `WHERE` clause built
from the predicate by `' AND '.join(f"{f}=?" for f in query.keys())`. -/
def rowMatches (schema : List Column) (r : Row) (q : Query) : Bool :=
  q.all (fun kv =>
    match rowVal schema r kv.1 with
    | some v => sqlEq v kv.2
    | none => false)

/-- Whether inserting `newRow` would violate a `UNIQUE` constraint against the
existing row `oldRow`: some unique column holds the same non-`NULL` value in
both. -/
def conflictsAt (schema : List Column) (oldRow newRow : Row) : Bool :=
  (List.range schema.length).any (fun i =>
    match schema.get? i, oldRow.get? i, newRow.get? i with
    | some c, some v1, some v2 => c.unique && decide (v1 ≠ Value.null) && decide (v1 = v2)
    | _, _, _ => false)

/-- The integer id stored at position 0 of a row. -/
def rowId (r : Row) : Int :=
  match r.head? with
  | some (Value.int i) => i
  | _ => 0

/-- The rowid SQLite assigns when the `INTEGER PRIMARY KEY` column is omitted
from an `INSERT`: one more than the largest id in use. -/
def nextId (rows : List Row) : Int :=
  (rows.map rowId).foldl max 0 + 1

/-- Values of `obj` at the given attribute names, in order
(`[getattr(obj, name) for name in names]`); `none` if any attribute is
missing. -/
def getValues (obj : Obj) (names : List String) : Option (List Value) :=
  match names with
  | [] => some []
  | n :: rest =>
    match getattr obj n, getValues obj rest with
    | some v, some vs => some (v :: vs)
    | _, _ => none

/-- Engine semantics of
`INSERT OR REPLACE INTO t (cols[1:]) VALUES (?...)`: a fresh id is assigned,
every existing row that conflicts with the new row on a unique column is
deleted, and the new row is appended. -/
def insertOrReplaceRow (t : Table) (vals : List Value) : Table :=
  ⟨t.schema,
    t.rows.filter (fun r => !(conflictsAt t.schema r (Value.int (nextId t.rows) :: vals)))
      ++ [Value.int (nextId t.rows) :: vals]⟩

/-- `insert_one(table, obj)`: binds `getattr(obj, name)` for the column names
after the identity column, executes `INSERT OR REPLACE`, commits. -/
def insert_one (db : Database) (table : String) (obj : Obj) : Option Database :=
  match getTable db table with
  | none => none
  | some t =>
    match getValues obj ((table_columns t).drop 1) with
    | none => none
    | some vals => some (setTable db table (insertOrReplaceRow t vals))

/-- Engine semantics of `executemany` of a plain
`INSERT INTO t (cols[1:]) VALUES (?...)`: rows are inserted in order and a
uniqueness conflict raises `IntegrityError` (modelled as `none`, nothing
committed). -/
def insertRowsPlain (t : Table) (valss : List (List Value)) : Option Table :=
  match valss with
  | [] => some t
  | vs :: rest =>
    if t.rows.any (fun r => conflictsAt t.schema r (Value.int (nextId t.rows) :: vs)) then none
    else insertRowsPlain ⟨t.schema, t.rows ++ [Value.int (nextId t.rows) :: vs]⟩ rest

/-- Attribute tuples of many objects
(`[tuple(getattr(obj, name) for name in cols[1:]) for obj in objs]`). -/
def getValuesMany (objs : List Obj) (names : List String) : Option (List (List Value)) :=
  match objs with
  | [] => some []
  | o :: rest =>
    match getValues o names, getValuesMany rest names with
    | some vs, some vss => some (vs :: vss)
    | _, _ => none

/-- `insert_many(table, objs)`: binds each object's fields for the non-identity
columns and runs `executemany` of a plain `INSERT`, then commits. -/
def insert_many (db : Database) (table : String) (objs : List Obj) : Option Database :=
  match getTable db table with
  | none => none
  | some t =>
    match getValuesMany objs ((table_columns t).drop 1) with
    | none => none
    | some valss =>
      match insertRowsPlain t valss with
      | none => none
      | some t2 => some (setTable db table t2)

/-- Materialization `c(**dict(zip(col_names, row)))` of a fetched row as a
record whose fields are the column names. -/
def materialize (colNames : List String) (r : Row) : Obj :=
  List.zip colNames r

/-- The `WHERE` clause text the source builds:
`' AND '.join(f"{f}=?" for f in query.keys())`. -/
def whereClause (q : Query) : String :=
  String.intercalate " AND " (q.map (fun kv => kv.1 ++ "=?"))

/-- `select(table, c, query)`: `SELECT cols FROM table WHERE k1=? AND ...`.
An empty predicate yields `WHERE ;`, a syntax error (`none`); an unknown
column name fails at prepare time (`none`).  Otherwise the rows satisfying
every equality are materialized in order. -/
def select (db : Database) (table : String) (q : Query) : Option (List Obj) :=
  match getTable db table with
  | none => none
  | some t =>
    if q.isEmpty then none
    else if q.any (fun kv => (colIndex t.schema kv.1).isNone) then none
    else some ((t.rows.filter (fun r => rowMatches t.schema r q)).map
      (materialize (table_columns t)))

/-- `select_all(table, c)`: `SELECT * FROM table`, all rows materialized. -/
def select_all (db : Database) (table : String) : Option (List Obj) :=
  (getTable db table).map (fun t => t.rows.map (materialize (table_columns t)))

/-- Whether the bound values would write a non-integer (e.g. `NULL`) into the
rowid-alias column (`INTEGER PRIMARY KEY`): SQLite raises `datatype mismatch`
when an `UPDATE` writes such a value into a matched row.  Numeric-text affinity
coercion, and the remaining `UPDATE`-time constraint checks (`UNIQUE` among
updated rows, `NOT NULL`), are outside the embedding; no claim depends on
them. -/
def rowidMismatch (schema : List Column) (vals : List Value) : Bool :=
  (List.range schema.length).any (fun i =>
    match schema.get? i, vals.get? i with
    | some c, some v =>
        c.pk && (c.type == "INTEGER") &&
          (match v with | Value.int _ => false | _ => true)
    | _, _ => false)

/-- `update(table, obj, query)`:
`UPDATE table SET c1=?, ..., cn=? WHERE k1=? AND ...` — note the `SET` list is
ALL columns (`col_names`, identity included), bound from `getattr(obj, col)`.
Empty predicate and unknown query columns are engine errors (`none`), and so is
writing a non-integer into the rowid alias of a matched row (SQLite `datatype
mismatch`; no error if no row matches). -/
def update (db : Database) (table : String) (obj : Obj) (q : Query) : Option Database :=
  match getTable db table with
  | none => none
  | some t =>
    if q.isEmpty then none
    else if q.any (fun kv => (colIndex t.schema kv.1).isNone) then none
    else
      match getValues obj (table_columns t) with
      | none => none
      | some vals =>
        if (t.rows.any fun r => rowMatches t.schema r q) && rowidMismatch t.schema vals
        then none
        else
          some (setTable db table
            ⟨t.schema, t.rows.map (fun r => if rowMatches t.schema r q then vals else r)⟩)

/-- `delete(table, query)`: `DELETE FROM table WHERE k1=? AND ...`; matching
rows are removed.  Empty predicate and unknown columns are engine errors. -/
def delete (db : Database) (table : String) (q : Query) : Option Database :=
  match getTable db table with
  | none => none
  | some t =>
    if q.isEmpty then none
    else if q.any (fun kv => (colIndex t.schema kv.1).isNone) then none
    else some (setTable db table
      ⟨t.schema, t.rows.filter (fun r => !(rowMatches t.schema r q))⟩)

/-- `delete_all(table)`: `DELETE from table` with no `WHERE` — removes every
row. -/
def delete_all (db : Database) (table : String) : Option Database :=
  (getTable db table).map (fun t => setTable db table ⟨t.schema, []⟩)

/-- Rendering of one stored value as a `csv.writer` cell: `None` becomes the
empty cell, other values their text. -/
def valueToCSVCell (v : Value) : String :=
  match v with
  | Value.null => ""
  | Value.int i => toString i
  | Value.str s => s

/-- `export_table_to_csv(table, file)`: the written file as a list of CSV
records — first the header row `table_columns(table)`, then every row of
`SELECT * FROM table` in order. -/
def export_table_to_csv (db : Database) (table : String) : Option (List (List String)) :=
  (getTable db table).map (fun t =>
    table_columns t :: t.rows.map (fun r => r.map valueToCSVCell))

/-- Well-formedness of a table state as the engine maintains it: every row has
one value per schema column, and column names are distinct. -/
def TableWF (t : Table) : Prop :=
  (∀ r ∈ t.rows, r.length = t.schema.length) ∧ (table_columns t).Nodup

instance (t : Table) : Decidable (TableWF t) := by
  unfold TableWF; infer_instance

/-- Specification-side reading of the spec sentence "a mapping from column name
to a scalar equality value, conjunctively ANDed": a row satisfies the
predicate iff every key names a column whose stored value equals the (non-null)
query value. -/
def RowSatisfies (schema : List Column) (r : Row) (q : Query) : Prop :=
  ∀ kv ∈ q, kv.2 ≠ Value.null ∧ rowVal schema r kv.1 = some kv.2

instance (schema : List Column) (r : Row) (q : Query) : Decidable (RowSatisfies schema r q) := by
  unfold RowSatisfies; infer_instance

/-! ## Helper lemmas -/

/-- `getTable` on a cons cell checks the head name first. -/
theorem getTable_cons (p : String × Table) (rest : Database) (name : String) :
    getTable (p :: rest) name = if p.1 == name then some p.2 else getTable rest name := by
  cases hp : (p.1 == name) with
  | true =>
    have hf : List.find? (fun q => q.1 == name) (p :: rest) = some p :=
      List.find?_cons_of_pos _ hp
    simp [getTable, hf, hp]
  | false =>
    have hf : List.find? (fun q => q.1 == name) (p :: rest)
        = List.find? (fun q => q.1 == name) rest :=
      List.find?_cons_of_neg _ (by simp [hp])
    simp [getTable, hf, hp]

/-- Replacing an existing table makes `getTable` return the new table. -/
theorem getTable_setTable (db : Database) (name : String) (t0 t : Table)
    (h : getTable db name = some t0) :
    getTable (setTable db name t) name = some t := by
  induction db with
  | nil => simp [getTable] at h
  | cons p rest ih =>
    simp only [setTable, List.map_cons]
    cases hp : (p.1 == name) with
    | true =>
      rw [if_pos rfl, getTable_cons]
      simp [hp]
    | false =>
      rw [if_neg (by simp), getTable_cons, hp]
      simp only [Bool.false_eq_true, if_false]
      apply ih
      rw [getTable_cons, hp] at h
      simpa using h

/-- `getValues` produces one value per requested name. -/
theorem getValues_length (obj : Obj) :
    ∀ (names : List String) (vals : List Value),
      getValues obj names = some vals → vals.length = names.length := by
  intro names
  induction names with
  | nil => intro vals h; unfold getValues at h; simp at h; simp [h]
  | cons n rest ih =>
    intro vals h
    unfold getValues at h
    cases ha : getattr obj n with
    | none => rw [ha] at h; simp at h
    | some v =>
      rw [ha] at h
      cases hr : getValues obj rest with
      | none => rw [hr] at h; simp at h
      | some vs =>
        rw [hr] at h
        simp at h
        subst h
        simp [ih vs hr]

/-- The value bound at position `j` is the attribute named by the `j`-th
requested name. -/
theorem getValues_getElem (obj : Obj) :
    ∀ (names : List String) (vals : List Value),
      getValues obj names = some vals →
      ∀ (j : Nat) (n : String), names[j]? = some n → vals[j]? = getattr obj n := by
  intro names
  induction names with
  | nil => intro vals h j n hj; simp at hj
  | cons m rest ih =>
    intro vals h j n hj
    unfold getValues at h
    cases ha : getattr obj m with
    | none => rw [ha] at h; simp at h
    | some v =>
      rw [ha] at h
      cases hr : getValues obj rest with
      | none => rw [hr] at h; simp at h
      | some vs =>
        rw [hr] at h
        simp at h
        subst h
        cases j with
        | zero =>
          simp at hj
          subst hj
          simp [ha]
        | succ j =>
          simp at hj ⊢
          exact ih vs hr j n hj

/-- Looking an attribute up in a materialized record `zip names vals` finds
the value at the name's (unique) position. -/
theorem getattr_zip :
    ∀ (names : List String) (vals : List Value) (i : Nat) (n : String) (v : Value),
      names.Nodup → names[i]? = some n → vals[i]? = some v →
      getattr (List.zip names vals) n = some v := by
  intro names
  induction names with
  | nil => intro vals i n v _ hn; simp at hn
  | cons m rest ih =>
    intro vals i n v hnd hn hv
    cases vals with
    | nil => simp at hv
    | cons w ws =>
      cases i with
      | zero =>
        simp at hn hv
        subst hn
        subst hv
        simp [getattr, List.zip_cons_cons, List.find?_cons_of_pos]
      | succ i =>
        simp at hn hv
        have hmem : n ∈ rest := List.getElem?_mem hn
        have hne : ¬((fun p => p.1 == n) (m, w)) = true := by
          simp only [beq_iff_eq]
          intro he
          exact (List.nodup_cons.mp hnd).1 (he ▸ hmem)
        have hrec := ih ws i n v (List.nodup_cons.mp hnd).2 hn hv
        have hf : List.find? (fun p => p.1 == n) ((m, w) :: rest.zip ws)
            = List.find? (fun p => p.1 == n) (rest.zip ws) :=
          List.find?_cons_of_neg _ hne
        unfold getattr at hrec ⊢
        rw [List.zip_cons_cons, hf]
        exact hrec

/-- SQL equality holds exactly between equal non-`NULL` values. -/
theorem sqlEq_eq_true_iff (a b : Value) :
    sqlEq a b = true ↔ a ≠ Value.null ∧ b ≠ Value.null ∧ a = b := by
  cases a <;> cases b <;> simp [sqlEq]

/-- Self-comparison of a non-`NULL` value succeeds. -/
theorem sqlEq_self (v : Value) (h : v ≠ Value.null) : sqlEq v v = true := by
  cases v <;> simp [sqlEq] at h ⊢

/-- When one side is `NULL` or the sides differ, SQL equality fails. -/
theorem sqlEq_eq_false (w v : Value) (h : w = Value.null ∨ w ≠ v) :
    sqlEq w v = false := by
  cases hw : sqlEq w v with
  | false => rfl
  | true =>
    obtain ⟨h1, -, h3⟩ := (sqlEq_eq_true_iff w v).mp hw
    cases h with
    | inl h => exact absurd h h1
    | inr h => exact absurd h3 h

/-- If inserting `nr` conflicts with no kept row, then at any unique column a
kept row cannot carry the same non-`NULL` value as `nr`. -/
theorem conflictsAt_false (schema : List Column) (r nr : Row) (i : Nat)
    (c : Column) (w v2 : Value)
    (h : conflictsAt schema r nr = false)
    (hc : schema[i]? = some c) (hr : r[i]? = some w) (hn : nr[i]? = some v2)
    (hu : c.unique = true) :
    w = Value.null ∨ w ≠ v2 := by
  unfold conflictsAt at h
  by_contra hcon
  push_neg at hcon
  obtain ⟨hw1, hw2⟩ := hcon
  have hlt : i < schema.length := by
    obtain ⟨hl, -⟩ := List.getElem?_eq_some_iff.mp hc
    exact hl
  have htrue : (List.range schema.length).any (fun i =>
      match schema.get? i, r.get? i, nr.get? i with
      | some c, some v1, some v2 => c.unique && decide (v1 ≠ Value.null) && decide (v1 = v2)
      | _, _, _ => false) = true := by
    rw [List.any_eq_true]
    refine ⟨i, List.mem_range.mpr hlt, ?_⟩
    simp only [List.get?_eq_getElem?]
    rw [hc, hr, hn]
    simp only []
    rw [hu, hw2]
    simp [hw2 ▸ hw1]
  rw [h] at htrue
  exact Bool.false_ne_true htrue

/-- The generated `WHERE` clause matches a row exactly when the row satisfies
the specification-side predicate reading. -/
theorem rowMatches_iff (schema : List Column) (r : Row) (q : Query) :
    rowMatches schema r q = true ↔ RowSatisfies schema r q := by
  unfold rowMatches RowSatisfies
  rw [List.all_eq_true]
  constructor
  · intro h kv hkv
    have hx := h kv hkv
    cases hrv : rowVal schema r kv.1 with
    | none => rw [hrv] at hx; simp at hx
    | some v =>
      rw [hrv] at hx
      have hx' : sqlEq v kv.2 = true := hx
      obtain ⟨h1, h2, h3⟩ := (sqlEq_eq_true_iff v kv.2).mp hx'
      exact ⟨h2, congrArg some h3⟩
  · intro h kv hkv
    obtain ⟨h1, h2⟩ := h kv hkv
    rw [h2]
    show sqlEq kv.2 kv.2 = true
    exact sqlEq_self kv.2 h1

/-- Bool-level form of `rowMatches_iff`. -/
theorem rowMatches_eq_decide (schema : List Column) (r : Row) (q : Query) :
    rowMatches schema r q = decide (RowSatisfies schema r q) := by
  by_cases h : RowSatisfies schema r q
  · rw [(rowMatches_iff schema r q).mpr h]
    simp [h]
  · have : ¬ rowMatches schema r q = true := fun hc => h ((rowMatches_iff schema r q).mp hc)
    rw [Bool.not_eq_true] at this
    rw [this]
    simp [h]

/-- `getValuesMany` computes `getValues` object by object. -/
theorem getValuesMany_getElem (names : List String) :
    ∀ (objs : List Obj) (valss : List (List Value)),
      getValuesMany objs names = some valss →
      ∀ (k : Nat) (o : Obj), objs[k]? = some o →
        ∃ vs, valss[k]? = some vs ∧ getValues o names = some vs := by
  intro objs
  induction objs with
  | nil => intro valss h k o hk; simp at hk
  | cons o0 rest ih =>
    intro valss h k o hk
    unfold getValuesMany at h
    cases ha : getValues o0 names with
    | none => rw [ha] at h; simp at h
    | some vs0 =>
      rw [ha] at h
      cases hr : getValuesMany rest names with
      | none => rw [hr] at h; simp at h
      | some vss =>
        rw [hr] at h
        simp at h
        subst h
        cases k with
        | zero =>
          simp at hk
          subst hk
          exact ⟨vs0, by simp, ha⟩
        | succ k =>
          simp at hk ⊢
          exact ih vss hr k o hk

/-- A successful `executemany` of plain `INSERT`s keeps the schema and appends
one row per value tuple, each prefixed with its assigned id. -/
theorem insertRowsPlain_append :
    ∀ (valss : List (List Value)) (t t2 : Table),
      insertRowsPlain t valss = some t2 →
      t2.schema = t.schema ∧ ∃ ids : List Int, ids.length = valss.length ∧
        t2.rows = t.rows ++ List.zipWith (fun i vs => Value.int i :: vs) ids valss := by
  intro valss
  induction valss with
  | nil =>
    intro t t2 h
    unfold insertRowsPlain at h
    simp at h
    subst h
    exact ⟨rfl, [], rfl, by simp⟩
  | cons vs rest ih =>
    intro t t2 h
    unfold insertRowsPlain at h
    split at h
    · exact absurd h (by simp)
    · obtain ⟨hsc, ids, hlen, hrows⟩ := ih ⟨t.schema, t.rows ++ [Value.int (nextId t.rows) :: vs]⟩ t2 h
      refine ⟨hsc, nextId t.rows :: ids, by simp [hlen], ?_⟩
      rw [hrows]
      simp [List.append_assoc]

/-! ## Claim theorems -/

/-- C3: for every table, after `delete_all(table)` the table contains zero
rows: a subsequent `select_all` on that table returns the empty list. -/
theorem delete_all_empties (db db2 : Database) (table : String)
    (h : delete_all db table = some db2) :
    select_all db2 table = some [] := by
  unfold delete_all at h
  cases ht : getTable db table with
  | none => rw [ht] at h; simp at h
  | some t =>
    rw [ht] at h
    simp at h
    subst h
    unfold select_all
    rw [getTable_setTable db table t ⟨t.schema, []⟩ ht]
    simp

/-- C10: on the empty predicate mapping, `select`, `update` and `delete` each
build a statement whose `WHERE` clause is the empty string (`WHERE ;`) and
raise an engine syntax error (modelled as `none`: the call raises, so no new
state is committed and the table is unchanged) instead of matching all or no
rows. -/
theorem empty_predicate_errors (db : Database) (table : String) (t : Table) (obj : Obj)
    (ht : getTable db table = some t) :
    whereClause [] = "" ∧ select db table [] = none ∧
    update db table obj [] = none ∧ delete db table [] = none := by
  refine ⟨by decide, ?_, ?_, ?_⟩
  · unfold select
    rw [ht]
    rfl
  · unfold update
    rw [ht]
    rfl
  · unfold delete
    rw [ht]
    rfl

/-- C8: `export_table_to_csv` writes a header row equal to the table's column
names in introspection order, followed by one CSV row per table row, in
order. -/
theorem export_csv_header_rows (db : Database) (table : String) (t : Table)
    (ht : getTable db table = some t) :
    ∃ dataRows, export_table_to_csv db table = some (table_columns t :: dataRows) ∧
      dataRows.length = t.rows.length ∧
      ∀ i : Nat, dataRows[i]? = (t.rows[i]?).map (fun r => r.map valueToCSVCell) := by
  refine ⟨t.rows.map (fun r => r.map valueToCSVCell), ?_, by simp, ?_⟩
  · unfold export_table_to_csv
    rw [ht]
    rfl
  · intro i
    simp

/-- Supporting result for the update claims: whenever `update` returns a new
state, it has replaced exactly the rows matching the predicate with the
freshly bound values and left every non-matching row unchanged, position by
position. -/
theorem update_frame (db db2 : Database) (table : String) (t : Table) (obj : Obj) (q : Query)
    (ht : getTable db table = some t)
    (hupd : update db table obj q = some db2) :
    ∃ t2 vals, getTable db2 table = some t2 ∧
      getValues obj (table_columns t) = some vals ∧
      t2.schema = t.schema ∧ t2.rows.length = t.rows.length ∧
      ∀ (i : Nat) (r : Row), t.rows[i]? = some r →
        (rowMatches t.schema r q = true → t2.rows[i]? = some vals) ∧
        (rowMatches t.schema r q = false → t2.rows[i]? = some r) := by
  unfold update at hupd
  rw [ht] at hupd
  simp only [] at hupd
  split at hupd
  · exact absurd hupd (by simp)
  split at hupd
  · exact absurd hupd (by simp)
  cases hv : getValues obj (table_columns t) with
  | none => rw [hv] at hupd; simp at hupd
  | some vals =>
    rw [hv] at hupd
    simp only [] at hupd
    split at hupd
    · exact absurd hupd (by simp)
    simp at hupd
    subst hupd
    refine ⟨⟨t.schema, t.rows.map (fun r => if rowMatches t.schema r q then vals else r)⟩, vals,
      getTable_setTable db table t _ ht, rfl, rfl, by simp, ?_⟩
    intro i r hir
    constructor
    · intro hm
      simp [hir, hm]
    · intro hm
      simp [hir, hm]

/-- C7 (amended): whenever `update` completes without an engine error — in
particular the record's identity value must be an integer when a row matches —
it overwrites all columns (the identity column included) of every matching
row, each column receiving the record attribute of the same name, bound
positionally in introspection order. -/
theorem update_overwrites_all_columns (db db2 : Database) (table : String) (t : Table)
    (obj : Obj) (q : Query)
    (ht : getTable db table = some t)
    (hupd : update db table obj q = some db2) :
    ∃ t2 vals, getTable db2 table = some t2 ∧
      getValues obj (table_columns t) = some vals ∧
      vals.length = t.schema.length ∧
      (∀ (j : Nat) (c : Column), t.schema[j]? = some c → vals[j]? = getattr obj c.name) ∧
      ∀ (i : Nat) (r : Row), t.rows[i]? = some r → rowMatches t.schema r q = true →
        t2.rows[i]? = some vals := by
  unfold update at hupd
  rw [ht] at hupd
  simp only [] at hupd
  split at hupd
  · exact absurd hupd (by simp)
  split at hupd
  · exact absurd hupd (by simp)
  cases hv : getValues obj (table_columns t) with
  | none => rw [hv] at hupd; simp at hupd
  | some vals =>
    rw [hv] at hupd
    simp only [] at hupd
    split at hupd
    · exact absurd hupd (by simp)
    simp at hupd
    subst hupd
    refine ⟨⟨t.schema, t.rows.map (fun r => if rowMatches t.schema r q then vals else r)⟩, vals,
      getTable_setTable db table t _ ht, rfl, ?_, ?_, ?_⟩
    · have := getValues_length obj (table_columns t) vals hv
      simpa [table_columns] using this
    · intro j c hc
      apply getValues_getElem obj (table_columns t) vals hv j c.name
      unfold table_columns
      rw [List.getElem?_map, hc]
      rfl
    · intro i r hir hm
      simp [hir, hm]

/-- C6: with a non-empty predicate over existing columns, `select` returns the
materialized records of exactly the rows satisfying every equality of the
predicate (the spec-side conjunctive reading `RowSatisfies`), in table
order. -/
theorem select_where_equalities (db : Database) (table : String) (t : Table) (q : Query)
    (ht : getTable db table = some t) (hq : q ≠ [])
    (hcols : ∀ kv ∈ q, (colIndex t.schema kv.1).isSome) :
    select db table q =
      some ((t.rows.filter (fun r => decide (RowSatisfies t.schema r q))).map
        (materialize (table_columns t))) := by
  unfold select
  rw [ht]
  simp only []
  have hany : (q.any fun kv => (colIndex t.schema kv.1).isNone) = false := by
    rw [← Bool.not_eq_true, List.any_eq_true]
    rintro ⟨kv, hm, hnone⟩
    have hsome := hcols kv hm
    rw [Option.isNone_iff_eq_none] at hnone
    rw [hnone] at hsome
    simp at hsome
  rw [if_neg (by simp [hq]), hany, if_neg (by simp)]
  have hfc : t.rows.filter (fun r => rowMatches t.schema r q)
      = t.rows.filter (fun r => decide (RowSatisfies t.schema r q)) :=
    List.filter_congr (fun r _ => rowMatches_eq_decide t.schema r q)
  rw [hfc]

/-- C9: when the bound tuple collides with an existing row on a unique column,
`insert_one` (`INSERT OR REPLACE`) succeeds — the conflicting rows are deleted
and the new row appended — while `insert_many` (plain `INSERT`) of the same
single record raises the engine's constraint error (`none`). -/
theorem insert_conflict_behavior (db : Database) (table : String) (t : Table) (obj : Obj)
    (vals : List Value)
    (ht : getTable db table = some t)
    (hvals : getValues obj ((table_columns t).drop 1) = some vals)
    (hconf : (t.rows.any fun r =>
        conflictsAt t.schema r (Value.int (nextId t.rows) :: vals)) = true) :
    insert_one db table obj = some (setTable db table (insertOrReplaceRow t vals)) ∧
    insert_many db table [obj] = none := by
  constructor
  · unfold insert_one
    rw [ht]
    simp only []
    rw [hvals]
  · unfold insert_many
    rw [ht]
    simp only []
    have hm : getValuesMany [obj] ((table_columns t).drop 1) = some [vals] := by
      unfold getValuesMany
      rw [hvals]
      rfl
    rw [hm]
    simp only []
    unfold insertRowsPlain
    rw [hconf]
    rfl

/-- C5: on a fresh table name, `create_table` is idempotent (a second call with
the same arguments returns the same state and the same schema), creates the
table with the synthetic identity column `id INTEGER PRIMARY KEY` first and no
rows, and returns exactly the introspected schema, whose first entry is
`(0, "id", "INTEGER", 0, NULL, 1)`. -/
theorem create_table_spec (db : Database) (table : String)
    (fields : List (String × ColumnDef))
    (hfresh : getTable db table = none) :
    (∀ db2 : Database, create_table (create_table db2 table fields).1 table fields
        = create_table db2 table fields) ∧
    (∃ t, getTable (create_table db table fields).1 table = some t ∧
      t.schema.head? = some idColumn ∧ t.rows = [] ∧
      (create_table db table fields).2 = get_table_info t) ∧
    (create_table db table fields).2.head? = some ⟨0, "id", "INTEGER", false, none, true⟩ := by
  refine ⟨?_, ?_, ?_⟩
  · intro db2
    cases h2 : getTable db2 table with
    | some t =>
      unfold create_table
      simp only [h2]
    | none =>
      unfold create_table
      simp only [h2]
      have hcons : getTable ((table, (⟨idColumn :: fields.map mkColumn, []⟩ : Table)) :: db2)
          table = some ⟨idColumn :: fields.map mkColumn, []⟩ := by
        rw [getTable_cons]
        simp
      rw [hcons]
  · unfold create_table
    rw [hfresh]
    refine ⟨⟨idColumn :: fields.map mkColumn, []⟩, ?_, rfl, rfl, rfl⟩
    rw [getTable_cons]
    simp
  · unfold create_table
    rw [hfresh]
    rfl

/-- Values bound from the non-identity column names line up with the schema:
position `j - 1` of the bound tuple is the attribute named after schema
column `j`. -/
theorem bound_values_by_name (t : Table) (o : Obj) (vs : List Value)
    (hv : getValues o ((table_columns t).drop 1) = some vs) :
    ∀ (j : Nat) (c : Column), 0 < j → t.schema[j]? = some c →
      vs[j - 1]? = getattr o c.name := by
  intro j c hj hc
  apply getValues_getElem o _ vs hv (j - 1) c.name
  rw [List.getElem?_drop]
  have h1 : 1 + (j - 1) = j := by omega
  rw [h1]
  unfold table_columns
  rw [List.getElem?_map, hc]
  rfl

/-- C4: `insert_one` appends one row, and `insert_many` one row per record, to
the end of the table; in each appended row the value at (non-identity) column
position `j` is `getattr(record, name_of_column_j)` — the record fields are
bound by column name, the identity column excluded, positionally in the
introspection order, and the new state is committed. -/
theorem insert_binding_order (db : Database) (table : String) (t : Table)
    (ht : getTable db table = some t) :
    (∀ (obj : Obj) (db2 : Database), insert_one db table obj = some db2 →
      ∃ vals t2, getValues obj ((table_columns t).drop 1) = some vals ∧
        getTable db2 table = some t2 ∧
        t2.rows.getLast? = some (Value.int (nextId t.rows) :: vals) ∧
        ∀ (j : Nat) (c : Column), 0 < j → t.schema[j]? = some c →
          vals[j - 1]? = getattr obj c.name) ∧
    (∀ (objs : List Obj) (db2 : Database), insert_many db table objs = some db2 →
      ∃ valss t2, ∃ ids : List Int,
        getValuesMany objs ((table_columns t).drop 1) = some valss ∧
        getTable db2 table = some t2 ∧ ids.length = valss.length ∧
        t2.rows = t.rows ++ List.zipWith (fun i vs => Value.int i :: vs) ids valss ∧
        ∀ (k : Nat) (o : Obj), objs[k]? = some o →
          ∃ vs, valss[k]? = some vs ∧
            ∀ (j : Nat) (c : Column), 0 < j → t.schema[j]? = some c →
              vs[j - 1]? = getattr o c.name) := by
  constructor
  · intro obj db2 hins
    unfold insert_one at hins
    rw [ht] at hins
    simp only [] at hins
    cases hvals : getValues obj ((table_columns t).drop 1) with
    | none => rw [hvals] at hins; simp at hins
    | some vals =>
      rw [hvals] at hins
      simp at hins
      subst hins
      refine ⟨vals, insertOrReplaceRow t vals,
        rfl, getTable_setTable db table t _ ht, ?_, bound_values_by_name t obj vals hvals⟩
      unfold insertOrReplaceRow
      exact List.getLast?_concat _
  · intro objs db2 hins
    unfold insert_many at hins
    rw [ht] at hins
    simp only [] at hins
    cases hm : getValuesMany objs ((table_columns t).drop 1) with
    | none => rw [hm] at hins; simp at hins
    | some valss =>
      rw [hm] at hins
      simp only [] at hins
      cases hrp : insertRowsPlain t valss with
      | none => rw [hrp] at hins; simp at hins
      | some t2 =>
        rw [hrp] at hins
        simp at hins
        subst hins
        obtain ⟨hsc, ids, hlen, hrows⟩ := insertRowsPlain_append valss t t2 hrp
        refine ⟨valss, t2, ids, rfl, getTable_setTable db table t _ ht, hlen, hrows, ?_⟩
        intro k o hk
        obtain ⟨vs, hvk, hgv⟩ := getValuesMany_getElem _ objs valss hm k o hk
        exact ⟨vs, hvk, bound_values_by_name t o vs hgv⟩

/-- C1: inserting a record with valid fields via `insert_one` and then
selecting by a unique non-identity field of the record returns exactly one
record, whose value at every non-identity column equals the inserted record's
attribute of the same name. -/
theorem insert_select_roundtrip
    (db db2 : Database) (table u : String) (t : Table) (obj : Obj) (v : Value)
    (iu : Nat) (cu : Column)
    (ht : getTable db table = some t) (hwf : TableWF t)
    (hiu : colIndex t.schema u = some iu) (hiu0 : 0 < iu)
    (hcu : t.schema[iu]? = some cu) (hname : cu.name = u) (huniq : cu.unique = true)
    (hv : getattr obj u = some v) (hvne : v ≠ Value.null)
    (hins : insert_one db table obj = some db2) :
    ∃ rec, select db2 table [(u, v)] = some [rec] ∧
      ∀ (i : Nat) (c : Column), 0 < i → t.schema[i]? = some c →
        getattr rec c.name = getattr obj c.name := by
  unfold insert_one at hins
  rw [ht] at hins
  simp only [] at hins
  cases hvals : getValues obj ((table_columns t).drop 1) with
  | none => rw [hvals] at hins; simp at hins
  | some vals =>
    rw [hvals] at hins
    simp at hins
    subst hins
    have hvlen : vals.length = t.schema.length - 1 := by
      have h1 := getValues_length obj _ vals hvals
      simpa [table_columns] using h1
    have hiult : iu < t.schema.length := by
      obtain ⟨h, -⟩ := List.getElem?_eq_some_iff.mp hcu
      exact h
    have hnri : (Value.int (nextId t.rows) :: vals)[iu]? = some v := by
      cases iu with
      | zero => exact absurd hiu0 (by omega)
      | succ j =>
        simp only [List.getElem?_cons_succ]
        have hb := bound_values_by_name t obj vals hvals (j + 1) cu hiu0 hcu
        simp only [Nat.add_sub_cancel] at hb
        rw [hb, hname, hv]
    have hnewm : rowMatches t.schema (Value.int (nextId t.rows) :: vals) [(u, v)] = true := by
      unfold rowMatches
      simp only [List.all_cons, List.all_nil, Bool.and_true]
      have hrv : rowVal t.schema (Value.int (nextId t.rows) :: vals) u = some v := by
        unfold rowVal
        rw [hiu]
        show (Value.int (nextId t.rows) :: vals).get? iu = some v
        rw [List.get?_eq_getElem?]
        exact hnri
      rw [hrv]
      exact sqlEq_self v hvne
    have hkept : (t.rows.filter (fun r =>
          !(conflictsAt t.schema r (Value.int (nextId t.rows) :: vals)))).filter
        (fun r => rowMatches t.schema r [(u, v)]) = [] := by
      rw [List.filter_eq_nil_iff]
      intro r hr
      obtain ⟨hrmem, hrkeep⟩ := List.mem_filter.mp hr
      have hcf : conflictsAt t.schema r (Value.int (nextId t.rows) :: vals) = false := by
        simpa using hrkeep
      have hrlen : r.length = t.schema.length := hwf.1 r hrmem
      obtain ⟨w, hrw⟩ : ∃ w, r[iu]? = some w := by
        cases hx : r[iu]? with
        | none =>
          rw [List.getElem?_eq_none_iff] at hx
          exact absurd hx (by omega)
        | some w => exact ⟨w, rfl⟩
      have hwv := conflictsAt_false t.schema r (Value.int (nextId t.rows) :: vals) iu cu w v
        hcf hcu hrw hnri huniq
      intro hm
      unfold rowMatches at hm
      simp only [List.all_cons, List.all_nil, Bool.and_true] at hm
      have hrv : rowVal t.schema r u = some w := by
        unfold rowVal
        rw [hiu]
        show r.get? iu = some w
        rw [List.get?_eq_getElem?]
        exact hrw
      rw [hrv] at hm
      have hm' : sqlEq w v = true := hm
      rw [sqlEq_eq_false w v hwv] at hm'
      exact Bool.false_ne_true hm'
    refine ⟨materialize (table_columns t) (Value.int (nextId t.rows) :: vals), ?_, ?_⟩
    · unfold select
      rw [getTable_setTable db table t _ ht]
      simp only [insertOrReplaceRow, table_columns]
      rw [if_neg (by simp)]
      have hc2 : (([(u, v)] : Query).any fun kv => (colIndex t.schema kv.1).isNone) = false := by
        simp [hiu]
      rw [hc2, if_neg (by simp)]
      rw [List.filter_append, hkept]
      simp [hnewm, materialize, table_columns]
    · intro i c hi hc
      have hci : (table_columns t)[i]? = some c.name := by
        unfold table_columns
        rw [List.getElem?_map, hc]
        rfl
      have hilt : i < t.schema.length := by
        obtain ⟨h, -⟩ := List.getElem?_eq_some_iff.mp hc
        exact h
      obtain ⟨w, hw⟩ : ∃ w, (Value.int (nextId t.rows) :: vals)[i]? = some w := by
        cases hx : (Value.int (nextId t.rows) :: vals)[i]? with
        | none =>
          rw [List.getElem?_eq_none_iff] at hx
          simp only [List.length_cons] at hx
          exact absurd hx (by omega)
        | some w => exact ⟨w, rfl⟩
      have hbind : (Value.int (nextId t.rows) :: vals)[i]? = getattr obj c.name := by
        cases i with
        | zero => exact absurd hi (by omega)
        | succ j =>
          simp only [List.getElem?_cons_succ]
          have hb := bound_values_by_name t obj vals hvals (j + 1) c hi hc
          simpa using hb
      have hgz := getattr_zip (table_columns t) (Value.int (nextId t.rows) :: vals) i c.name w
        hwf.2 hci hw
      unfold materialize
      rw [hgz, ← hbind]
      exact hw.symm

/-! ## Concrete fixtures (mirroring the repository's locations test table,
abridged) and witnesses -/

/-- The `slug TEXT NOT NULL UNIQUE` column of the test schema. -/
def slugCol : Column := ⟨"slug", "TEXT", true, none, false, true⟩

/-- The `name TEXT NOT NULL` column (uniqueness elided). -/
def nameCol : Column := ⟨"name", "TEXT", true, none, false, false⟩

/-- Empty `locations` table. -/
def locTable : Table := ⟨[idColumn, slugCol, nameCol], []⟩

/-- The row inserted by the fixture record. -/
def locRow : Row := [Value.int 1, Value.str "lrh", Value.str "Louisa"]

/-- The `locations` table holding `locRow`. -/
def locTable1 : Table := ⟨[idColumn, slugCol, nameCol], [locRow]⟩

/-- Database with an empty `locations` table. -/
def dbEmpty : Database := [("locations", locTable)]

/-- Database with one row in `locations`. -/
def dbOne : Database := [("locations", locTable1)]

/-- Fixture record (fields correspond to the non-identity columns). -/
def locObj : Obj := [("slug", Value.str "lrh"), ("name", Value.str "Louisa")]

/-- Full-record fixture (identity field included) used for `update`. -/
def locObj2 : Obj := [("id", Value.int 1), ("slug", Value.str "louisa"), ("name", Value.str "L")]

/-- Record whose slug collides with `locRow`. -/
def locObjDup : Obj := [("slug", Value.str "lrh"), ("name", Value.str "Other")]

/-- Equality predicate on the unique slug column. -/
def lrhQuery : Query := [("slug", Value.str "lrh")]

/-- Database state after updating `dbOne` with `locObj2`. -/
def dbUpd : Database :=
  [("locations", ⟨[idColumn, slugCol, nameCol],
    [[Value.int 1, Value.str "louisa", Value.str "L"]]⟩)]

/-- Witness for C1 at the fixture: inserting `locObj` into the empty table and
selecting by its unique slug round-trips the values. -/
theorem insert_select_roundtrip_witness :
    insert_one dbEmpty "locations" locObj = some dbOne ∧
    ∃ rec, select dbOne "locations" [("slug", Value.str "lrh")] = some [rec] ∧
      ∀ (i : Nat) (c : Column), 0 < i → locTable.schema[i]? = some c →
        getattr rec c.name = getattr locObj c.name :=
  ⟨by decide, insert_select_roundtrip dbEmpty dbOne "locations" "slug" locTable locObj
    (Value.str "lrh") 1 slugCol (by decide) (by decide) (by decide) (by decide) (by decide)
    (by decide) (by decide) (by decide) (by decide) (by decide)⟩

/-- Record in the shape the repository's own `test_update` uses: the `id`
field is left at its default `None`. -/
def locObjNullId : Obj :=
  [("id", Value.null), ("slug", Value.str "louisa"), ("name", Value.str "L")]

/-- C2, the code evaluated at the failing input: with one row matching the
predicate and a record whose `id` field is `None` (the repository's own
`test_update` fixture shape — `Location.id` defaults to `None`), the generated
`UPDATE ... SET id=?, ...` binds `id=NULL` into the matched row's
`INTEGER PRIMARY KEY`, SQLite raises `datatype mismatch`, and no row is
modified — although the record's fields are all present and a row matches. -/
theorem update_null_identity_errors :
    getattr locObjNullId "id" = some Value.null ∧
    rowMatches locTable1.schema locRow lrhQuery = true ∧
    update dbOne "locations" locObjNullId lrhQuery = none := by
  decide

/-- Witness for C3 at the fixture: deleting all rows empties the table. -/
theorem delete_all_empties_witness :
    delete_all dbOne "locations" = some dbEmpty ∧
    select_all dbEmpty "locations" = some [] :=
  ⟨by decide, delete_all_empties dbOne dbEmpty "locations" (by decide)⟩

/-- Witness for C4 at the fixture table. -/
theorem insert_binding_order_witness :
    getTable dbEmpty "locations" = some locTable ∧
    ((∀ (obj : Obj) (db2 : Database), insert_one dbEmpty "locations" obj = some db2 →
      ∃ vals t2, getValues obj ((table_columns locTable).drop 1) = some vals ∧
        getTable db2 "locations" = some t2 ∧
        t2.rows.getLast? = some (Value.int (nextId locTable.rows) :: vals) ∧
        ∀ (j : Nat) (c : Column), 0 < j → locTable.schema[j]? = some c →
          vals[j - 1]? = getattr obj c.name) ∧
    (∀ (objs : List Obj) (db2 : Database), insert_many dbEmpty "locations" objs = some db2 →
      ∃ valss t2, ∃ ids : List Int,
        getValuesMany objs ((table_columns locTable).drop 1) = some valss ∧
        getTable db2 "locations" = some t2 ∧ ids.length = valss.length ∧
        t2.rows = locTable.rows ++ List.zipWith (fun i vs => Value.int i :: vs) ids valss ∧
        ∀ (k : Nat) (o : Obj), objs[k]? = some o →
          ∃ vs, valss[k]? = some vs ∧
            ∀ (j : Nat) (c : Column), 0 < j → locTable.schema[j]? = some c →
              vs[j - 1]? = getattr o c.name)) :=
  ⟨by decide, insert_binding_order dbEmpty "locations" locTable (by decide)⟩

/-- Column definitions handed to `create_table` in the fixture. -/
def locFields : List (String × ColumnDef) :=
  [("slug", ⟨"TEXT", true, none, true⟩), ("name", ⟨"TEXT", true, none, false⟩)]

/-- Witness for C5: creating `locations` in the empty database. -/
theorem create_table_spec_witness :
    getTable ([] : Database) "locations" = none ∧
    ((∀ db2 : Database, create_table (create_table db2 "locations" locFields).1 "locations"
        locFields = create_table db2 "locations" locFields) ∧
    (∃ t, getTable (create_table ([] : Database) "locations" locFields).1 "locations" = some t ∧
      t.schema.head? = some idColumn ∧ t.rows = [] ∧
      (create_table ([] : Database) "locations" locFields).2 = get_table_info t) ∧
    (create_table ([] : Database) "locations" locFields).2.head?
      = some ⟨0, "id", "INTEGER", false, none, true⟩) :=
  ⟨by decide, create_table_spec ([] : Database) "locations" locFields (by decide)⟩

/-- Witness for C6 at the fixture query. -/
theorem select_where_equalities_witness :
    getTable dbOne "locations" = some locTable1 ∧ lrhQuery ≠ [] ∧
    select dbOne "locations" lrhQuery =
      some ((locTable1.rows.filter
          (fun r => decide (RowSatisfies locTable1.schema r lrhQuery))).map
        (materialize (table_columns locTable1))) :=
  ⟨by decide, by decide, select_where_equalities dbOne "locations" locTable1 lrhQuery
    (by decide) (by decide) (by decide)⟩

/-- Witness for C7 at the fixture update. -/
theorem update_overwrites_all_columns_witness :
    update dbOne "locations" locObj2 lrhQuery = some dbUpd ∧
    ∃ t2 vals, getTable dbUpd "locations" = some t2 ∧
      getValues locObj2 (table_columns locTable1) = some vals ∧
      vals.length = locTable1.schema.length ∧
      (∀ (j : Nat) (c : Column), locTable1.schema[j]? = some c →
        vals[j]? = getattr locObj2 c.name) ∧
      ∀ (i : Nat) (r : Row), locTable1.rows[i]? = some r →
        rowMatches locTable1.schema r lrhQuery = true → t2.rows[i]? = some vals :=
  ⟨by decide, update_overwrites_all_columns dbOne dbUpd "locations" locTable1 locObj2
    lrhQuery (by decide) (by decide)⟩

/-- A second one-row table for the C7 counterexample. -/
def pagesTable : Table :=
  ⟨[idColumn, slugCol, nameCol], [[Value.int 1, Value.str "home", Value.str "Home"]]⟩

/-- Database holding `pagesTable`. -/
def dbPages : Database := [("pages", pagesTable)]

/-- Record with every column's field present but `id = None`. -/
def aboutObj : Obj :=
  [("id", Value.null), ("slug", Value.str "about"), ("name", Value.str "About")]

/-- Counterexample to C7 as stated: a record with fields for every column and a
row matching the predicate, yet `update` raises (`datatype mismatch` on the
identity column, modelled `none`) and overwrites nothing. -/
theorem update_overwrites_all_columns_counterexample :
    getValues aboutObj (table_columns pagesTable)
      = some [Value.null, Value.str "about", Value.str "About"] ∧
    rowMatches pagesTable.schema [Value.int 1, Value.str "home", Value.str "Home"]
      [("slug", Value.str "home")] = true ∧
    update dbPages "pages" aboutObj [("slug", Value.str "home")] = none := by
  decide

/-- Witness for C8 at the one-row fixture table. -/
theorem export_csv_header_rows_witness :
    getTable dbOne "locations" = some locTable1 ∧
    ∃ dataRows, export_table_to_csv dbOne "locations"
        = some (table_columns locTable1 :: dataRows) ∧
      dataRows.length = locTable1.rows.length ∧
      ∀ i : Nat, dataRows[i]? = (locTable1.rows[i]?).map (fun r => r.map valueToCSVCell) :=
  ⟨by decide, export_csv_header_rows dbOne "locations" locTable1 (by decide)⟩

/-- Witness for C9: `locObjDup` collides with `locRow` on the unique slug. -/
theorem insert_conflict_behavior_witness :
    getValues locObjDup ((table_columns locTable1).drop 1)
      = some [Value.str "lrh", Value.str "Other"] ∧
    insert_one dbOne "locations" locObjDup
      = some (setTable dbOne "locations"
          (insertOrReplaceRow locTable1 [Value.str "lrh", Value.str "Other"])) ∧
    insert_many dbOne "locations" [locObjDup] = none :=
  ⟨by decide,
    (insert_conflict_behavior dbOne "locations" locTable1 locObjDup
      [Value.str "lrh", Value.str "Other"] (by decide) (by decide) (by decide)).1,
    (insert_conflict_behavior dbOne "locations" locTable1 locObjDup
      [Value.str "lrh", Value.str "Other"] (by decide) (by decide) (by decide)).2⟩

/-- Witness for C10 at the fixture table. -/
theorem empty_predicate_errors_witness :
    getTable dbOne "locations" = some locTable1 ∧
    (whereClause [] = "" ∧ select dbOne "locations" [] = none ∧
      update dbOne "locations" locObj [] = none ∧ delete dbOne "locations" [] = none) :=
  ⟨by decide, empty_predicate_errors dbOne "locations" locTable1 locObj (by decide)⟩

end GdSqlite3
